import Mathlib

/-!
Verification of the ion-functions specification against the source.

Numeric conventions of the embedding:

* Scalar sensor data are embedded as exact rationals (`ℚ`); integer raw
  counts as `ℤ`.  Python float literals become the corresponding rationals.
* Transcendental primitives used by the source (`np.log`, `np.log10`,
  `x ** 0.5`, `10. ** x`, `np.sin`, `np.cos`) are not computable on `ℚ`,
  so each definition that needs one takes it as an explicit function
  argument; every theorem below is proved for an arbitrary choice of these
  functions (adding only the standard trigonometric identities as explicit
  hypotheses where a claim needs them).
* Batch (array) operations of the source are elementwise over time samples
  and bins (spec section 5: every row is independent); they are embedded as
  `List` maps, with per-sample/per-cell kernels.
* Cells that the source sets to a fill sentinel on output are embedded as
  `Option` values (`none` = filled), following the spec's own design note
  that sentinel masking is an explicit valid/invalid wrapper.
-/

namespace IonFunctions

/-- Modelled from the spec: the system-wide fill sentinel (`fill_value` of
`ion_functions/utils.py`, a module not present under `src/`).  The spec only
requires a single well-known numeric value; no claim depends on which. -/
def fill_value : ℚ := -9999999

/-! ## CO2 functions (`src/ion_functions/data/co2_functions.py`) -/

/-- One time record of the inputs taken by `pco2_pco2wat` /
`pco2_calc_pco2`: the measurement type, the 14-element light array, the
thermistor temperature, the reagent and instrument calibration coefficients
and the two blank measurements.  (`calc` is a Lean keyword, hence the field
name `calc_`.) -/
structure Pco2Sample where
  mtype : ℤ
  light : List ℚ
  therm : ℚ
  ea434 : ℚ
  eb434 : ℚ
  ea620 : ℚ
  eb620 : ℚ
  calt : ℚ
  cala : ℚ
  calb : ℚ
  calc_ : ℚ
  a434blank : ℚ
  a620blank : ℚ
  deriving Repr, DecidableEq

/-- Per-record kernel of `pco2_calc_pco2` (`co2_functions.py`, lines
334-374).  All numpy operations of the source are elementwise, so the batch
function is the map of this kernel.  The blank-measurement mask `m`
(`ar434 == ar4620`), the spoofed ratios `0.99999` and the final reset of the
masked entries to `fill_value` are mirrored line by line.  `log10`, `sqrt`
and `pow10` stand for `np.log10`, `** 0.5` and `10. **`. -/
def pco2_calc_pco2_sample (log10 sqrt pow10 : ℚ → ℚ) (x : Pco2Sample) : ℚ :=
  let e1 : ℚ := 43 / 10000
  let e2 : ℚ := 2136 / 1000
  let e3 : ℚ := 2105 / 10000
  let ratio434 := x.light.getD 6 0
  let ratio620 := x.light.getD 7 0
  let ar434 := ratio434 / x.a434blank
  let ar4620 := ratio620 / x.a620blank
  let m : Bool := decide (ar434 = ar4620)
  let sp434 := if m then (99999 : ℚ) / 100000 else ar434
  let sp4620 := if m then (99999 : ℚ) / 100000 else ar4620
  let a434 := -(log10 sp434)
  let a620 := -(log10 sp4620)
  let ratio := a620 / a434
  let v1 := ratio - e1
  let v2 := e2 - e3 * ratio
  let rco21 := -(log10 (v1 / v2))
  let rco22 := (x.therm - x.calt) * (8 / 1000) + rco21
  let t_coeff := 75778 / 10000000 - 12389 / 10000000 * rco22
    - 48757 / 100000000 * rco22 ^ 2
  let t_cor_rco2 := rco21 + t_coeff * (x.therm - x.calt)
  let pco2 := pow10 ((-x.calb + sqrt (x.calb ^ 2
    - 4 * x.cala * (x.calc_ - t_cor_rco2))) / (2 * x.cala))
  if m then fill_value else pco2

/-- Batch `pco2_calc_pco2` (`co2_functions.py`, lines 282-374): the
elementwise map of `pco2_calc_pco2_sample` over the records. -/
def pco2_calc_pco2 (log10 sqrt pow10 : ℚ → ℚ) (recs : List Pco2Sample) : List ℚ :=
  recs.map (pco2_calc_pco2_sample log10 sqrt pow10)

/-- `pco2_pco2wat` (`co2_functions.py`, lines 203-278): compute
`pco2_calc_pco2` on the whole batch, then reset the records whose
measurement type is 5 (blank measurements) to `fill_value`
(`m = np.where(mtype == 5)[0]; pco2[m] = fill_value`). -/
def pco2_pco2wat (log10 sqrt pow10 : ℚ → ℚ) (recs : List Pco2Sample) : List ℚ :=
  List.zipWith (fun x p => if x.mtype = 5 then fill_value else p)
    recs (pco2_calc_pco2 log10 sqrt pow10 recs)

/-- Per-record kernel of `pco2_thermistor` (`co2_functions.py`, lines
122-167); `bits14` records which of the two hardware branches
(`sami_bits[0] == 14`) was selected, and `log` stands for `np.log`. -/
def pco2_thermistor_sample (log : ℚ → ℚ) (bits14 : Bool) (traw : ℚ) : ℚ :=
  let rt := if bits14 then log ((traw / (16384 - traw)) * 17400)
    else log ((traw / (4096 - traw)) * 17400)
  let inv_t := 10183 / 10000000 + 241 / 1000000 * rt + 15 / 100000000 * rt ^ 3
  1 / inv_t - 27315 / 100

/-- `pco2_thermistor` (`co2_functions.py`, lines 122-167): the branch on
`sami_bits[0] == 14` is taken once, outside the elementwise conversion, and
the chosen formula is applied to the whole `traw` array. -/
def pco2_thermistor (log : ℚ → ℚ) (traw : List ℚ) (sami_bits : List ℤ) : List ℚ :=
  if sami_bits.headD 0 = 14 then traw.map (pco2_thermistor_sample log true)
  else traw.map (pco2_thermistor_sample log false)

/-- Per-record kernel of `pco2_battery` (`co2_functions.py`, lines
170-200): counts to volts, on the 14-bit or the 12-bit hardware formula. -/
def pco2_battery_sample (bits14 : Bool) (braw : ℚ) : ℚ :=
  if bits14 then braw * 3 / 4000 else braw * 15 / 4096

/-- `pco2_battery` (`co2_functions.py`, lines 170-200): as with
`pco2_thermistor`, the branch on `sami_bits[0] == 14` is taken once for the
whole batch. -/
def pco2_battery (braw : List ℚ) (sami_bits : List ℤ) : List ℚ :=
  if sami_bits.headD 0 = 14 then braw.map (pco2_battery_sample true)
  else braw.map (pco2_battery_sample false)

/-! ## Beam-to-instrument transform (spec section 4.1)

`adcp_functions.py` itself is not present under `src/` (only its unit and
performance tests are), so the transform is modelled from the spec. -/

/-- Modelled from the spec: the fixed instrument beam geometry of the
4-beam Janus configuration (spec section 4.1), carried as the four scale
coefficients of the beam-to-instrument linear transform (`a` and `b` derive
from the beam angle, `c` is the convex/concave factor and `d` the error
velocity scale); their numeric values are irrational and are left
symbolic. -/
structure JanusGeom where
  a : ℚ
  b : ℚ
  c : ℚ
  d : ℚ
  deriving Repr, DecidableEq

/-- Modelled from the spec: the x (starboard) row of the fixed Janus
beam-to-instrument transform matrix applied to the four beam velocities. -/
def xvel (g : JanusGeom) (v1 v2 v3 v4 : ℚ) : ℚ := g.c * g.a * (v1 - v2)

/-- Modelled from the spec: the y (forward) row of the fixed Janus
beam-to-instrument transform matrix. -/
def yvel (g : JanusGeom) (v1 v2 v3 v4 : ℚ) : ℚ := g.c * g.a * (v4 - v3)

/-- Modelled from the spec: the z (vertical) row of the fixed Janus
beam-to-instrument transform matrix. -/
def zvel (g : JanusGeom) (v1 v2 v3 v4 : ℚ) : ℚ := g.b * (v1 + v2 + v3 + v4)

/-- Modelled from the spec: the error velocity (redundancy check) row of
the fixed Janus beam-to-instrument transform matrix; it compares the
vertical velocity estimated from the beam pair 1-2 with the one from the
pair 3-4. -/
def evel (g : JanusGeom) (v1 v2 v3 v4 : ℚ) : ℚ := g.d * (v1 + v2 - v3 - v4)

/-- Modelled from the spec: the number of beams of a cell that fail
quality, i.e. whose percent-good is below the system-wide threshold `t`
(spec section 3; a fill-sentinel percent-good, being below any reasonable
threshold, also fails). -/
def badCount (t pg1 pg2 pg3 pg4 : ℤ) : ℕ :=
  (if pg1 < t then 1 else 0) + (if pg2 < t then 1 else 0)
    + (if pg3 < t then 1 else 0) + (if pg4 < t then 1 else 0)

/-- Modelled from the spec: the 3-beam output of a cell — x, y, z from the
substituted beams and the error velocity forced to zero (spec section
4.1). -/
def threeBeamCell (g : JanusGeom) (c1 c2 c3 c4 : ℚ) :
    Option ℚ × Option ℚ × Option ℚ × Option ℚ :=
  (some (xvel g c1 c2 c3 c4), some (yvel g c1 c2 c3 c4),
   some (zvel g c1 c2 c3 c4), some 0)

/-- Modelled from the spec: the quality policy of the 4-beam
beam-to-instrument transform at one (time, bin) cell (spec section 4.1).
If two or more beams fail the percent-good threshold the cell is fill
(`none`) in all four outputs; if exactly one fails, the missing beam value
is estimated from the other three so that the vertical-velocity equation is
exactly satisfied (the two beam-pair vertical estimates agree, i.e. the
substituted beams obey `c1 + c2 = c3 + c4`), x, y, z are recomputed from
the substituted beams and the error velocity is forced to zero; otherwise
the full 4-beam linear transform applies. -/
def adcp_beam2ins_cell (t : ℤ) (g : JanusGeom) (b1 b2 b3 b4 pg1 pg2 pg3 pg4 : ℤ) :
    Option ℚ × Option ℚ × Option ℚ × Option ℚ :=
  if 2 ≤ badCount t pg1 pg2 pg3 pg4 then (none, none, none, none)
  else if badCount t pg1 pg2 pg3 pg4 = 1 then
    if pg1 < t then threeBeamCell g ((b3 : ℚ) + b4 - b2) b2 b3 b4
    else if pg2 < t then threeBeamCell g b1 ((b3 : ℚ) + b4 - b1) b3 b4
    else if pg3 < t then threeBeamCell g b1 b2 ((b1 : ℚ) + b2 - b4) b4
    else threeBeamCell g b1 b2 b3 ((b1 : ℚ) + b2 - b3)
  else
    (some (xvel g b1 b2 b3 b4), some (yvel g b1 b2 b3 b4),
     some (zvel g b1 b2 b3 b4), some (evel g b1 b2 b3 b4))

/-- Modelled from the spec: the inverse of the fixed Janus instrument
geometry matrix (the spec's round-trip property, section 8), recovering the
four beam velocities from x, y, z and the error velocity. -/
def adcp_ins2beam (g : JanusGeom) (x y z e : ℚ) : ℚ × ℚ × ℚ × ℚ :=
  let s12 := (z / g.b + e / g.d) / 2
  let s34 := (z / g.b - e / g.d) / 2
  let dx := x / (g.c * g.a)
  let dy := y / (g.c * g.a)
  ((s12 + dx) / 2, (s12 - dx) / 2, (s34 - dy) / 2, (s34 + dy) / 2)

/-! ## Instrument-to-earth transform (spec section 4.2), modelled from the
spec since `adcp_functions.py` is not under `src/`.  The trigonometric
functions `sin` and `cos` are abstract arguments applied to angles in
degrees (the centidegree-to-radian conversion of the source is folded into
them, since `π` is not rational). -/

/-- Modelled from the spec: the 3x3 heading/pitch/roll rotation applied to
one instrument-frame vector — the composition of the heading rotation about
the vertical axis with the pitch and roll tilts (spec section 4.2), written
out entrywise with abstract `sin`/`cos`.  Angles are in degrees. -/
def earthRow (sin cos : ℚ → ℚ) (hdg pch rll : ℚ) (u v w : ℚ) : ℚ × ℚ × ℚ :=
  let sh := sin hdg
  let ch := cos hdg
  let sp := sin pch
  let cp := cos pch
  let sr := sin rll
  let cr := cos rll
  ((ch * cr + sh * sp * sr) * u + sh * cp * v + (ch * sr - sh * sp * cr) * w,
   (-sh * cr + ch * sp * sr) * u + ch * cp * v + (-sh * sr - ch * sp * cr) * w,
   -cp * sr * u + sp * v + cp * cr * w)

/-- Modelled from the spec: `adcp_ins2earth` for one time sample
(spec section 4.2).  Heading, pitch and roll arrive as integer
centidegrees and are converted to degrees; when the orientation flag is not
1 (downward-looking, flag 0), pitch and roll are negated before the
rotation matrix is composed, since the downward mounting inverts their
physical sense relative to the upward convention of the rotation
formula. -/
def adcp_ins2earth_sample (sin cos : ℚ → ℚ) (u v w : ℚ)
    (heading pitch rll orient : ℤ) : ℚ × ℚ × ℚ :=
  earthRow sin cos ((heading : ℚ) / 100)
    (if orient = 1 then (pitch : ℚ) / 100 else -((pitch : ℚ) / 100))
    (if orient = 1 then (rll : ℚ) / 100 else -((rll : ℚ) / 100))
    u v w

/-! ## Magnetic correction (spec section 4.3), modelled from the spec
since `adcp_functions.py` is not under `src/`. -/

/-- Modelled from the spec: `magnetic_correction` for one cell (spec
section 4.3) — the standard 2D rotation of the earth-frame horizontal
velocity by the magnetic declination angle `decl` (in degrees; the
radian conversion is folded into the abstract `sin`/`cos`), yielding the
true-north-referenced eastward and northward velocities. -/
def magnetic_correction (sin cos : ℚ → ℚ) (decl : ℚ) (u v : ℚ) : ℚ × ℚ :=
  (u * cos decl + v * sin decl, -u * sin decl + v * cos decl)

/-! ## Bin-depth geolocation (spec section 4.4), modelled from the spec
since `adcp_functions.py` is not under `src/`.  This is the
meters-of-depth unit variant (`adcp_bin_depths_meters`): the sensor depth
is already in meters and no pressure conversion applies. -/

/-- Modelled from the spec: one output row of bin depths (spec section
4.4).  If any of the five per-sample inputs (distance to the first bin,
bin size, bin count, sensor depth, orientation) equals the fill sentinel
`sfill`, the whole row is fill (`none`); otherwise, with the
centimeter-to-meter conversions applied, bin `k` is at
`sd - dfb/100 - k * bs/100` for the upward-looking orientation (flag 1)
and `sd + dfb/100 + k * bs/100` for the downward-looking one.  The row
width is the batch-wide output width, fixed by the caller. -/
def binRow (sfill : ℤ) (width : ℕ) (dfb bs nb sd ornt : ℤ) : List (Option ℚ) :=
  if dfb = sfill ∨ bs = sfill ∨ nb = sfill ∨ sd = sfill ∨ ornt = sfill then
    List.replicate width none
  else
    (List.range width).map fun (k : ℕ) =>
      if ornt = 1 then some ((sd : ℚ) - (dfb : ℚ) / 100 - (k : ℚ) * (bs : ℚ) / 100)
      else some ((sd : ℚ) + (dfb : ℚ) / 100 + (k : ℚ) * (bs : ℚ) / 100)

/-- Modelled from the spec: the per-sample recursion of
`adcp_bin_depths_meters` over the five parallel input sequences, with the
output width fixed once for the whole batch. -/
def adcp_bin_depths_go (sfill : ℤ) (width : ℕ) :
    List ℤ → List ℤ → List ℤ → List ℤ → List ℤ → List (List (Option ℚ))
  | dfb :: ds, bs :: bss, nb :: ns, sd :: ss, o :: os =>
    binRow sfill width dfb bs nb sd o :: adcp_bin_depths_go sfill width ds bss ns ss os
  | _, _, _, _, _ => []

/-- Modelled from the spec: `adcp_bin_depths_meters` (spec section 4.4).
The five inputs are parallel per-time-sample sequences; the uniform output
width is determined by the first sample's declared bin count alone (spec:
"only the first sample's declared count determines the uniform output
width"), and each sample yields one row of bin depths. -/
def adcp_bin_depths_meters (sfill : ℤ)
    (dist_first_bin bin_size num_bins sensor_depth adcp_orientation : List ℤ) :
    List (List (Option ℚ)) :=
  adcp_bin_depths_go sfill (num_bins.headD 0).toNat
    dist_first_bin bin_size num_bins sensor_depth adcp_orientation

/-! ## Theorems for the CO2 claims -/

/-- C9: in every batch passed to `pco2_pco2wat`, a record whose measurement
type equals 5 (a blank) has its output set to the system fill value, and a
record whose measurement type is not 5 returns exactly the value computed by
`pco2_calc_pco2` for that record. -/
theorem pco2_pco2wat_blank_fill (log10 sqrt pow10 : ℚ → ℚ)
    (recs : List Pco2Sample) (x : Pco2Sample) (i : ℕ)
    (hx : recs[i]? = some x) :
    (pco2_calc_pco2 log10 sqrt pow10 recs)[i]?
        = some (pco2_calc_pco2_sample log10 sqrt pow10 x) ∧
      (pco2_pco2wat log10 sqrt pow10 recs)[i]?
        = some (if x.mtype = 5 then fill_value
            else pco2_calc_pco2_sample log10 sqrt pow10 x) := by
  induction recs generalizing i with
  | nil => simp at hx
  | cons r rs ih =>
    cases i with
    | zero =>
      simp only [List.getElem?_cons_zero, Option.some.injEq] at hx
      subst hx
      simp [pco2_pco2wat, pco2_calc_pco2]
    | succ n =>
      simp only [List.getElem?_cons_succ] at hx
      have h := ih n hx
      simpa [pco2_pco2wat, pco2_calc_pco2] using h

/-- Witness for C9: a two-record batch, one blank record (type 5) and one
measurement record (type 4); the blank yields `fill_value` and the
measurement yields the `pco2_calc_pco2` value. -/
theorem pco2_pco2wat_blank_fill_witness :
    (pco2_pco2wat (fun _ => 0) (fun _ => 0) (fun _ => 0)
        [⟨5, [], 0, 0, 0, 0, 0, 0, 0, 0, 0, 1, 1⟩,
         ⟨4, [], 0, 0, 0, 0, 0, 0, 0, 0, 0, 1, 1⟩])[0]? = some fill_value ∧
      (pco2_pco2wat (fun _ => 0) (fun _ => 0) (fun _ => 0)
        [⟨5, [], 0, 0, 0, 0, 0, 0, 0, 0, 0, 1, 1⟩,
         ⟨4, [], 0, 0, 0, 0, 0, 0, 0, 0, 0, 1, 1⟩])[1]? =
        some (pco2_calc_pco2_sample (fun _ => 0) (fun _ => 0) (fun _ => 0)
          ⟨4, [], 0, 0, 0, 0, 0, 0, 0, 0, 0, 1, 1⟩) := by
  constructor
  · have h := pco2_pco2wat_blank_fill (fun _ => 0) (fun _ => 0) (fun _ => 0)
      [⟨5, [], 0, 0, 0, 0, 0, 0, 0, 0, 0, 1, 1⟩,
       ⟨4, [], 0, 0, 0, 0, 0, 0, 0, 0, 0, 1, 1⟩]
      ⟨5, [], 0, 0, 0, 0, 0, 0, 0, 0, 0, 1, 1⟩ 0 (by rfl)
    simpa using h.2
  · have h := pco2_pco2wat_blank_fill (fun _ => 0) (fun _ => 0) (fun _ => 0)
      [⟨5, [], 0, 0, 0, 0, 0, 0, 0, 0, 0, 1, 1⟩,
       ⟨4, [], 0, 0, 0, 0, 0, 0, 0, 0, 0, 1, 1⟩]
      ⟨4, [], 0, 0, 0, 0, 0, 0, 0, 0, 0, 1, 1⟩ 1 (by rfl)
    simpa using h.2

/-- C10: for `pco2_thermistor` and `pco2_battery`, the 14-bit / 12-bit
hardware branch is chosen solely from the first element of `sami_bits`, the
chosen formula is applied to every record of the batch, and the remaining
`sami_bits` elements have no effect on the output. -/
theorem pco2_sami_bits_first_element_only (log : ℚ → ℚ) (traw braw : List ℚ)
    (b0 : ℤ) (rest rest' : List ℤ) :
    pco2_thermistor log traw (b0 :: rest) = pco2_thermistor log traw (b0 :: rest') ∧
      pco2_battery braw (b0 :: rest) = pco2_battery braw (b0 :: rest') ∧
      pco2_thermistor log traw (b0 :: rest)
        = traw.map (pco2_thermistor_sample log (decide (b0 = 14))) ∧
      pco2_battery braw (b0 :: rest)
        = braw.map (pco2_battery_sample (decide (b0 = 14))) := by
  by_cases h : b0 = 14 <;>
    simp [pco2_thermistor, pco2_battery, h]

/-! ## Theorems for the beam-to-instrument claims -/

/-- C1: at every cell where exactly one of the four beams has percent-good
below the threshold and the other three are at or above it, the transform
recomputes x, y, z by the 3-beam solution: there are substituted beam
values agreeing with the three good beams whose pair sums agree (so the
vertical-velocity equation is exactly satisfied and the error-velocity
equation vanishes on them), the x, y, z outputs are those of the full
transform on the substituted beams (finite, not fill), and the output
error velocity is exactly zero. -/
theorem adcp_three_beam_solution (t : ℤ) (g : JanusGeom)
    (b1 b2 b3 b4 pg1 pg2 pg3 pg4 : ℤ)
    (hone : (pg1 < t ∧ t ≤ pg2 ∧ t ≤ pg3 ∧ t ≤ pg4) ∨
      (t ≤ pg1 ∧ pg2 < t ∧ t ≤ pg3 ∧ t ≤ pg4) ∨
      (t ≤ pg1 ∧ t ≤ pg2 ∧ pg3 < t ∧ t ≤ pg4) ∨
      (t ≤ pg1 ∧ t ≤ pg2 ∧ t ≤ pg3 ∧ pg4 < t)) :
    ∃ c1 c2 c3 c4 : ℚ,
      (t ≤ pg1 → c1 = (b1 : ℚ)) ∧ (t ≤ pg2 → c2 = (b2 : ℚ)) ∧
      (t ≤ pg3 → c3 = (b3 : ℚ)) ∧ (t ≤ pg4 → c4 = (b4 : ℚ)) ∧
      c1 + c2 = c3 + c4 ∧ evel g c1 c2 c3 c4 = 0 ∧
      adcp_beam2ins_cell t g b1 b2 b3 b4 pg1 pg2 pg3 pg4 =
        (some (xvel g c1 c2 c3 c4), some (yvel g c1 c2 c3 c4),
         some (zvel g c1 c2 c3 c4), some 0) := by
  rcases hone with ⟨h1, h2, h3, h4⟩ | ⟨h1, h2, h3, h4⟩ |
    ⟨h1, h2, h3, h4⟩ | ⟨h1, h2, h3, h4⟩
  · have hbc : badCount t pg1 pg2 pg3 pg4 = 1 := by
      unfold badCount
      rw [if_pos h1, if_neg (not_lt.mpr h2), if_neg (not_lt.mpr h3),
        if_neg (not_lt.mpr h4)]
    refine ⟨(b3 : ℚ) + b4 - b2, b2, b3, b4,
      fun hh => absurd hh (not_le.mpr h1), fun _ => rfl, fun _ => rfl, fun _ => rfl,
      by ring, by unfold evel; ring, ?_⟩
    unfold adcp_beam2ins_cell
    rw [hbc, if_neg (by norm_num), if_pos rfl, if_pos h1]
    rfl
  · have hbc : badCount t pg1 pg2 pg3 pg4 = 1 := by
      unfold badCount
      rw [if_neg (not_lt.mpr h1), if_pos h2, if_neg (not_lt.mpr h3),
        if_neg (not_lt.mpr h4)]
    refine ⟨b1, (b3 : ℚ) + b4 - b1, b3, b4,
      fun _ => rfl, fun hh => absurd hh (not_le.mpr h2), fun _ => rfl, fun _ => rfl,
      by ring, by unfold evel; ring, ?_⟩
    unfold adcp_beam2ins_cell
    rw [hbc, if_neg (by norm_num), if_pos rfl, if_neg (not_lt.mpr h1), if_pos h2]
    rfl
  · have hbc : badCount t pg1 pg2 pg3 pg4 = 1 := by
      unfold badCount
      rw [if_neg (not_lt.mpr h1), if_neg (not_lt.mpr h2), if_pos h3,
        if_neg (not_lt.mpr h4)]
    refine ⟨b1, b2, (b1 : ℚ) + b2 - b4, b4,
      fun _ => rfl, fun _ => rfl, fun hh => absurd hh (not_le.mpr h3), fun _ => rfl,
      by ring, by unfold evel; ring, ?_⟩
    unfold adcp_beam2ins_cell
    rw [hbc, if_neg (by norm_num), if_pos rfl, if_neg (not_lt.mpr h1),
      if_neg (not_lt.mpr h2), if_pos h3]
    rfl
  · have hbc : badCount t pg1 pg2 pg3 pg4 = 1 := by
      unfold badCount
      rw [if_neg (not_lt.mpr h1), if_neg (not_lt.mpr h2), if_neg (not_lt.mpr h3),
        if_pos h4]
    refine ⟨b1, b2, b3, (b1 : ℚ) + b2 - b3,
      fun _ => rfl, fun _ => rfl, fun _ => rfl, fun hh => absurd hh (not_le.mpr h4),
      by ring, by unfold evel; ring, ?_⟩
    unfold adcp_beam2ins_cell
    rw [hbc, if_neg (by norm_num), if_pos rfl, if_neg (not_lt.mpr h1),
      if_neg (not_lt.mpr h2), if_neg (not_lt.mpr h3)]
    rfl

/-- Witness for C1: threshold 25, unit geometry, beam 1 failing quality
(percent-good 24) and the other three at 100. -/
theorem adcp_three_beam_solution_witness :
    (((24 : ℤ) < 25 ∧ (25 : ℤ) ≤ 100 ∧ (25 : ℤ) ≤ 100 ∧ (25 : ℤ) ≤ 100) ∨
      ((25 : ℤ) ≤ 24 ∧ (100 : ℤ) < 25 ∧ (25 : ℤ) ≤ 100 ∧ (25 : ℤ) ≤ 100) ∨
      ((25 : ℤ) ≤ 24 ∧ (25 : ℤ) ≤ 100 ∧ (100 : ℤ) < 25 ∧ (25 : ℤ) ≤ 100) ∨
      ((25 : ℤ) ≤ 24 ∧ (25 : ℤ) ≤ 100 ∧ (25 : ℤ) ≤ 100 ∧ (100 : ℤ) < 25)) ∧
    ∃ c1 c2 c3 c4 : ℚ,
      ((25 : ℤ) ≤ 24 → c1 = ((10 : ℤ) : ℚ)) ∧ ((25 : ℤ) ≤ 100 → c2 = ((20 : ℤ) : ℚ)) ∧
      ((25 : ℤ) ≤ 100 → c3 = ((30 : ℤ) : ℚ)) ∧ ((25 : ℤ) ≤ 100 → c4 = ((40 : ℤ) : ℚ)) ∧
      c1 + c2 = c3 + c4 ∧ evel ⟨1, 1, 1, 1⟩ c1 c2 c3 c4 = 0 ∧
      adcp_beam2ins_cell 25 ⟨1, 1, 1, 1⟩ 10 20 30 40 24 100 100 100 =
        (some (xvel ⟨1, 1, 1, 1⟩ c1 c2 c3 c4), some (yvel ⟨1, 1, 1, 1⟩ c1 c2 c3 c4),
         some (zvel ⟨1, 1, 1, 1⟩ c1 c2 c3 c4), some 0) :=
  ⟨by decide,
   adcp_three_beam_solution 25 ⟨1, 1, 1, 1⟩ 10 20 30 40 24 100 100 100
     (Or.inl (by decide))⟩

/-- C2: at every cell where two or more of the four beams have percent-good
below the threshold, all four outputs of the beam-to-instrument transform
are the fill sentinel. -/
theorem adcp_two_bad_beams_fill (t : ℤ) (g : JanusGeom)
    (b1 b2 b3 b4 pg1 pg2 pg3 pg4 : ℤ)
    (h : 2 ≤ badCount t pg1 pg2 pg3 pg4) :
    adcp_beam2ins_cell t g b1 b2 b3 b4 pg1 pg2 pg3 pg4 =
      (none, none, none, none) := by
  unfold adcp_beam2ins_cell
  rw [if_pos h]

/-- Witness for C2: threshold 25 with beams 1 and 4 failing quality. -/
theorem adcp_two_bad_beams_fill_witness :
    2 ≤ badCount 25 24 100 100 24 ∧
      adcp_beam2ins_cell 25 ⟨1, 1, 1, 1⟩ 10 20 30 40 24 100 100 24 =
        (none, none, none, none) :=
  ⟨by decide,
   adcp_two_bad_beams_fill 25 ⟨1, 1, 1, 1⟩ 10 20 30 40 24 100 100 24 (by decide)⟩

/-- C7: for every 4-beam input whose percent-good values are all at or
above the threshold, the beam-to-instrument transform produces the full
4-beam linear transform values, and applying the inverse of the instrument
geometry matrix to them reproduces the original four beam velocities
exactly (the round-trip is exact in exact arithmetic, hence within any
numerical tolerance). -/
theorem adcp_beam_roundtrip (t : ℤ) (g : JanusGeom)
    (b1 b2 b3 b4 pg1 pg2 pg3 pg4 : ℤ)
    (ha : g.a ≠ 0) (hb : g.b ≠ 0) (hc : g.c ≠ 0) (hd : g.d ≠ 0)
    (h1 : t ≤ pg1) (h2 : t ≤ pg2) (h3 : t ≤ pg3) (h4 : t ≤ pg4) :
    adcp_beam2ins_cell t g b1 b2 b3 b4 pg1 pg2 pg3 pg4 =
      (some (xvel g b1 b2 b3 b4), some (yvel g b1 b2 b3 b4),
       some (zvel g b1 b2 b3 b4), some (evel g b1 b2 b3 b4)) ∧
    adcp_ins2beam g (xvel g b1 b2 b3 b4) (yvel g b1 b2 b3 b4)
        (zvel g b1 b2 b3 b4) (evel g b1 b2 b3 b4) =
      ((b1 : ℚ), (b2 : ℚ), (b3 : ℚ), (b4 : ℚ)) := by
  have hbc : badCount t pg1 pg2 pg3 pg4 = 0 := by
    unfold badCount
    rw [if_neg (not_lt.mpr h1), if_neg (not_lt.mpr h2), if_neg (not_lt.mpr h3),
      if_neg (not_lt.mpr h4)]
  constructor
  · unfold adcp_beam2ins_cell
    rw [hbc, if_neg (by norm_num), if_neg (by norm_num)]
  · unfold adcp_ins2beam xvel yvel zvel evel
    simp only [Prod.mk.injEq]
    refine ⟨?_, ?_, ?_, ?_⟩ <;> field_simp <;> ring

/-- Witness for C7: threshold 25, unit geometry, all percent-good at 100;
the transform and its inverse round-trip the beams (10, 20, 30, 40). -/
theorem adcp_beam_roundtrip_witness :
    (JanusGeom.a ⟨1, 1, 1, 1⟩ ≠ 0) ∧ ((25 : ℤ) ≤ 100) ∧
    adcp_beam2ins_cell 25 ⟨1, 1, 1, 1⟩ 10 20 30 40 100 100 100 100 =
      (some (xvel ⟨1, 1, 1, 1⟩ 10 20 30 40), some (yvel ⟨1, 1, 1, 1⟩ 10 20 30 40),
       some (zvel ⟨1, 1, 1, 1⟩ 10 20 30 40), some (evel ⟨1, 1, 1, 1⟩ 10 20 30 40)) ∧
    adcp_ins2beam ⟨1, 1, 1, 1⟩ (xvel ⟨1, 1, 1, 1⟩ 10 20 30 40)
        (yvel ⟨1, 1, 1, 1⟩ 10 20 30 40) (zvel ⟨1, 1, 1, 1⟩ 10 20 30 40)
        (evel ⟨1, 1, 1, 1⟩ 10 20 30 40) =
      (((10 : ℤ) : ℚ), ((20 : ℤ) : ℚ), ((30 : ℤ) : ℚ), ((40 : ℤ) : ℚ)) :=
  ⟨by decide, by decide,
   (adcp_beam_roundtrip 25 ⟨1, 1, 1, 1⟩ 10 20 30 40 100 100 100 100
     (by decide) (by decide) (by decide) (by decide)
     (by decide) (by decide) (by decide) (by decide)).1,
   (adcp_beam_roundtrip 25 ⟨1, 1, 1, 1⟩ 10 20 30 40 100 100 100 100
     (by decide) (by decide) (by decide) (by decide)
     (by decide) (by decide) (by decide) (by decide)).2⟩

/-! ## Theorems for the instrument-to-earth and magnetic-correction claims -/

/-- C6: for a time sample with the downward-looking orientation flag (0),
the instrument-to-earth transform composes its rotation matrix from the
heading and the negated pitch and roll, so its earth-frame output equals
the upward-looking transform applied with pitch and roll sign-flipped. -/
theorem adcp_ins2earth_downward_negates (sin cos : ℚ → ℚ) (u v w : ℚ)
    (heading pitch rll : ℤ) :
    adcp_ins2earth_sample sin cos u v w heading pitch rll 0 =
      earthRow sin cos ((heading : ℚ) / 100) (-((pitch : ℚ) / 100))
        (-((rll : ℚ) / 100)) u v w ∧
    adcp_ins2earth_sample sin cos u v w heading pitch rll 0 =
      adcp_ins2earth_sample sin cos u v w heading (-pitch) (-rll) 1 := by
  have hp : ((-pitch : ℤ) : ℚ) / 100 = -((pitch : ℚ) / 100) := by
    push_cast
    ring
  have hr : ((-rll : ℤ) : ℚ) / 100 = -((rll : ℚ) / 100) := by
    push_cast
    ring
  unfold adcp_ins2earth_sample
  rw [if_neg (by decide : ¬ (0 : ℤ) = 1), if_neg (by decide : ¬ (0 : ℤ) = 1),
    if_pos rfl, if_pos rfl, hp, hr]
  exact ⟨rfl, rfl⟩

/-- C8: the magnetic correction with declination 0 returns the horizontal
velocity unchanged, and the correction with declination `d` followed by the
correction with declination `-d` returns the original input, the correction
being a standard 2D rotation by the declination angle.  The standard
trigonometric identities the abstract `sin`/`cos` must satisfy at the
angles involved are explicit hypotheses. -/
theorem magnetic_correction_zero_and_inverse (sin cos : ℚ → ℚ) (d u v : ℚ)
    (h0s : sin 0 = 0) (h0c : cos 0 = 1)
    (hso : sin (-d) = -sin d) (hce : cos (-d) = cos d)
    (hpyth : sin d ^ 2 + cos d ^ 2 = 1) :
    magnetic_correction sin cos 0 u v = (u, v) ∧
      magnetic_correction sin cos (-d)
        (magnetic_correction sin cos d u v).1
        (magnetic_correction sin cos d u v).2 = (u, v) := by
  refine ⟨?_, ?_⟩
  · simp only [magnetic_correction, h0s, h0c, Prod.mk.injEq]
    constructor <;> ring
  · simp only [magnetic_correction, hso, hce, Prod.mk.injEq]
    constructor
    · linear_combination u * hpyth
    · linear_combination v * hpyth

/-- Witness for C8: the trigonometric-identity hypotheses are satisfiable
(for instance at declination 0), and the correction then fixes the
velocity (3, 4). -/
theorem magnetic_correction_zero_and_inverse_witness :
    magnetic_correction (fun _ => 0) (fun _ => 1) 0 3 4 = (3, 4) ∧
      magnetic_correction (fun _ => 0) (fun _ => 1) (-0)
        (magnetic_correction (fun _ => 0) (fun _ => 1) 0 3 4).1
        (magnetic_correction (fun _ => 0) (fun _ => 1) 0 3 4).2 = (3, 4) :=
  magnetic_correction_zero_and_inverse (fun _ => 0) (fun _ => 1) 0 3 4
    rfl rfl (by norm_num) rfl (by norm_num)

/-! ## Theorems for the bin-depth geolocation claims -/

/-- Every output row of the bin-depth recursion has the batch-wide width. -/
theorem binRow_length (sfill : ℤ) (width : ℕ) (dfb bs nb sd ornt : ℤ) :
    (binRow sfill width dfb bs nb sd ornt).length = width := by
  unfold binRow
  split
  · simp
  · rw [List.length_map, List.length_range]

/-- Indexing the bin-depth recursion: row `i` of the output is `binRow`
applied to the `i`-th entries of the five input sequences. -/
theorem adcp_bin_depths_go_getElem (sfill : ℤ) (width : ℕ)
    (ds bss ns ss os : List ℤ) (i : ℕ) (row : List (Option ℚ))
    (h : (adcp_bin_depths_go sfill width ds bss ns ss os)[i]? = some row) :
    ∃ dfb bs nb sd ornt, ds[i]? = some dfb ∧ bss[i]? = some bs ∧
      ns[i]? = some nb ∧ ss[i]? = some sd ∧ os[i]? = some ornt ∧
      row = binRow sfill width dfb bs nb sd ornt := by
  induction ds generalizing bss ns ss os i with
  | nil => simp [adcp_bin_depths_go] at h
  | cons x xs ih =>
    cases bss with
    | nil => simp [adcp_bin_depths_go] at h
    | cons y ys =>
      cases ns with
      | nil => simp [adcp_bin_depths_go] at h
      | cons z zs =>
        cases ss with
        | nil => simp [adcp_bin_depths_go] at h
        | cons p ps =>
          cases os with
          | nil => simp [adcp_bin_depths_go] at h
          | cons q qs =>
            cases i with
            | zero =>
              simp only [adcp_bin_depths_go, List.getElem?_cons_zero,
                Option.some.injEq] at h
              exact ⟨x, y, z, p, q, by simp, by simp, by simp, by simp, by simp,
                h.symm⟩
            | succ j =>
              simp only [adcp_bin_depths_go, List.getElem?_cons_succ] at h
              simp only [List.getElem?_cons_succ]
              exact ih ys zs ps qs j h

/-- Every row of the bin-depth recursion has the batch-wide width. -/
theorem adcp_bin_depths_go_length (sfill : ℤ) (width : ℕ)
    (ds bss ns ss os : List ℤ) (row : List (Option ℚ))
    (h : row ∈ adcp_bin_depths_go sfill width ds bss ns ss os) :
    row.length = width := by
  obtain ⟨i, hi⟩ := List.get_of_mem h
  have hq : (adcp_bin_depths_go sfill width ds bss ns ss os)[i.1]? = some row := by
    rw [List.getElem?_eq_getElem i.2]
    simpa using congrArg some hi
  obtain ⟨dfb, bs, nb, sd, ornt, _, _, _, _, _, hbin⟩ :=
    adcp_bin_depths_go_getElem sfill width ds bss ns ss os i.1 row hq
  rw [hbin, binRow_length]

/-- C3: for every time sample of the bin-depth geolocation, if any one of
the five inputs (distance-to-first-bin, bin size, bin count, sensor depth,
orientation) equals the fill sentinel at that sample, then every bin-depth
value of that sample's output row is the fill sentinel. -/
theorem adcp_bin_depths_fill_row (sfill : ℤ)
    (d b n s o : List ℤ) (i : ℕ) (row : List (Option ℚ))
    (hrow : (adcp_bin_depths_meters sfill d b n s o)[i]? = some row)
    (hfill : d[i]? = some sfill ∨ b[i]? = some sfill ∨ n[i]? = some sfill ∨
      s[i]? = some sfill ∨ o[i]? = some sfill) :
    ∀ x ∈ row, x = none := by
  unfold adcp_bin_depths_meters at hrow
  obtain ⟨dfb, bs, nb, sd, ornt, hd, hb, hn, hs, ho, hbin⟩ :=
    adcp_bin_depths_go_getElem sfill _ d b n s o i row hrow
  have hcond : dfb = sfill ∨ bs = sfill ∨ nb = sfill ∨ sd = sfill ∨ ornt = sfill := by
    rcases hfill with h | h | h | h | h
    · rw [hd] at h
      exact Or.inl (Option.some.inj h)
    · rw [hb] at h
      exact Or.inr (Or.inl (Option.some.inj h))
    · rw [hn] at h
      exact Or.inr (Or.inr (Or.inl (Option.some.inj h)))
    · rw [hs] at h
      exact Or.inr (Or.inr (Or.inr (Or.inl (Option.some.inj h))))
    · rw [ho] at h
      exact Or.inr (Or.inr (Or.inr (Or.inr (Option.some.inj h))))
  intro x hx
  rw [hbin] at hx
  unfold binRow at hx
  rw [if_pos hcond] at hx
  exact List.eq_of_mem_replicate hx

/-- Witness for C3: a single sample whose sensor depth is the fill
sentinel; the output row is 29 fill cells (its first cell shown filled by
the theorem). -/
theorem adcp_bin_depths_fill_row_witness :
    ((adcp_bin_depths_meters (-999999999) [900] [400] [29] [-999999999] [1])[0]? =
      some (List.replicate 29 (none : Option ℚ))) ∧
    (List.replicate 29 (none : Option ℚ)).getD 0 (some 0) = none := by
  refine ⟨by decide, ?_⟩
  have h := adcp_bin_depths_fill_row (-999999999) [900] [400] [29] [-999999999] [1]
    0 (List.replicate 29 none) (by decide)
    (Or.inr (Or.inr (Or.inr (Or.inl (by decide)))))
  have hm : (List.replicate 29 (none : Option ℚ)).getD 0 (some 0) ∈
      List.replicate 29 (none : Option ℚ) := by decide
  exact h _ hm

/-- C4: for every time sample of the bin-depth geolocation with no fill
among the five inputs, bin `k` of an upward-looking sample (flag 1) is at
`sensor depth - dist_first_bin/100 - k * bin_size/100` meters and bin `k`
of a downward-looking sample (flag 0) is at
`sensor depth + dist_first_bin/100 + k * bin_size/100` meters (the /100
converting centimeters to meters). -/
theorem adcp_bin_depths_formula (sfill : ℤ)
    (d b n s o : List ℤ) (i k : ℕ) (row : List (Option ℚ))
    (dfb bs nb sd ornt : ℤ)
    (hrow : (adcp_bin_depths_meters sfill d b n s o)[i]? = some row)
    (hd : d[i]? = some dfb) (hb : b[i]? = some bs) (hn : n[i]? = some nb)
    (hs : s[i]? = some sd) (ho : o[i]? = some ornt)
    (hgood : ¬(dfb = sfill ∨ bs = sfill ∨ nb = sfill ∨ sd = sfill ∨ ornt = sfill))
    (hk : k < row.length) :
    (ornt = 1 → row[k]? =
      some (some ((sd : ℚ) - (dfb : ℚ) / 100 - (k : ℚ) * (bs : ℚ) / 100))) ∧
    (ornt = 0 → row[k]? =
      some (some ((sd : ℚ) + (dfb : ℚ) / 100 + (k : ℚ) * (bs : ℚ) / 100))) := by
  unfold adcp_bin_depths_meters at hrow
  obtain ⟨dfb', bs', nb', sd', ornt', hd', hb', hn', hs', ho', hbin⟩ :=
    adcp_bin_depths_go_getElem sfill _ d b n s o i row hrow
  rw [hd] at hd'
  rw [hb] at hb'
  rw [hn] at hn'
  rw [hs] at hs'
  rw [ho] at ho'
  obtain rfl : dfb = dfb' := Option.some.inj hd'
  obtain rfl : bs = bs' := Option.some.inj hb'
  obtain rfl : nb = nb' := Option.some.inj hn'
  obtain rfl : sd = sd' := Option.some.inj hs'
  obtain rfl : ornt = ornt' := Option.some.inj ho'
  subst hbin
  rw [binRow_length] at hk
  unfold binRow
  rw [if_neg hgood]
  constructor
  · intro h1
    rw [List.getElem?_map, List.getElem?_range hk, Option.map_some', if_pos h1]
  · intro h0
    have hne : ¬ ornt = 1 := by
      rw [h0]
      decide
    rw [List.getElem?_map, List.getElem?_range hk, Option.map_some', if_neg hne]

/-- Witness for C4: the spec's concrete geometry — distance-to-first-bin
900 cm, bin size 400 cm, 29 bins; the upward-looking sample at sensor
depth 450 m has bins 441, 437, ..., 329 and the downward-looking sample at
sensor depth 7 m has bins 16, 20, ..., 128. -/
theorem adcp_bin_depths_formula_witness :
    ((binRow (-999999999) 29 900 400 29 450 1)[0]? = some (some 441)) ∧
    ((binRow (-999999999) 29 900 400 29 450 1)[28]? = some (some 329)) ∧
    ((binRow (-999999999) 29 900 400 29 7 0)[0]? = some (some 16)) ∧
    ((binRow (-999999999) 29 900 400 29 7 0)[28]? = some (some 128)) ∧
    adcp_bin_depths_meters (-999999999) [900, 900] [400, 400] [29, 29] [450, 7] [1, 0] =
      [[some 441, some 437, some 433, some 429, some 425, some 421, some 417,
        some 413, some 409, some 405, some 401, some 397, some 393, some 389,
        some 385, some 381, some 377, some 373, some 369, some 365, some 361,
        some 357, some 353, some 349, some 345, some 341, some 337, some 333,
        some 329],
       [some 16, some 20, some 24, some 28, some 32, some 36, some 40,
        some 44, some 48, some 52, some 56, some 60, some 64, some 68,
        some 72, some 76, some 80, some 84, some 88, some 92, some 96,
        some 100, some 104, some 108, some 112, some 116, some 120, some 124,
        some 128]] := by
  have hup := adcp_bin_depths_formula (-999999999)
    [900, 900] [400, 400] [29, 29] [450, 7] [1, 0] 0 0
    (binRow (-999999999) 29 900 400 29 450 1) 900 400 29 450 1
    (by rfl) (by decide) (by decide) (by decide) (by decide) (by decide)
    (by decide) (by decide)
  have hup28 := adcp_bin_depths_formula (-999999999)
    [900, 900] [400, 400] [29, 29] [450, 7] [1, 0] 0 28
    (binRow (-999999999) 29 900 400 29 450 1) 900 400 29 450 1
    (by rfl) (by decide) (by decide) (by decide) (by decide) (by decide)
    (by decide) (by decide)
  have hdn := adcp_bin_depths_formula (-999999999)
    [900, 900] [400, 400] [29, 29] [450, 7] [1, 0] 1 0
    (binRow (-999999999) 29 900 400 29 7 0) 900 400 29 7 0
    (by rfl) (by decide) (by decide) (by decide) (by decide) (by decide)
    (by decide) (by decide)
  have hdn28 := adcp_bin_depths_formula (-999999999)
    [900, 900] [400, 400] [29, 29] [450, 7] [1, 0] 1 28
    (binRow (-999999999) 29 900 400 29 7 0) 900 400 29 7 0
    (by rfl) (by decide) (by decide) (by decide) (by decide) (by decide)
    (by decide) (by decide)
  have h1 := hup.1 rfl
  have h2 := hup28.1 rfl
  have h3 := hdn.2 rfl
  have h4 := hdn28.2 rfl
  norm_num at h1 h2 h3 h4
  have hr : List.range (Int.toNat 29) =
      [0, 1, 2, 3, 4, 5, 6, 7, 8, 9, 10, 11, 12, 13, 14, 15, 16, 17, 18, 19,
       20, 21, 22, 23, 24, 25, 26, 27, 28] := by decide
  refine ⟨h1, h2, h3, h4, ?_⟩
  norm_num [adcp_bin_depths_meters, adcp_bin_depths_go, binRow, hr]

/-- C5: the number of output columns of the bin-depth geolocation is the
first sample's bin-count value alone; batches whose bin-count sequences
share the first entry produce rows of identical width, whatever the later
entries are. -/
theorem adcp_bin_depths_width_first_only (sfill : ℤ) (d b s o : List ℤ)
    (nb0 : ℤ) (rest rest' : List ℤ) (row row' : List (Option ℚ))
    (hrow : row ∈ adcp_bin_depths_meters sfill d b (nb0 :: rest) s o)
    (hrow' : row' ∈ adcp_bin_depths_meters sfill d b (nb0 :: rest') s o) :
    row.length = nb0.toNat ∧ row'.length = row.length := by
  unfold adcp_bin_depths_meters at hrow hrow'
  have h1 := adcp_bin_depths_go_length sfill _ d b (nb0 :: rest) s o row hrow
  have h2 := adcp_bin_depths_go_length sfill _ d b (nb0 :: rest') s o row' hrow'
  rw [List.headD_cons] at h1 h2
  exact ⟨h1, by rw [h1, h2]⟩

/-- Witness for C5: two batches differing only in the bin counts of the
later samples (29 versus the fill sentinel) both produce rows 29 cells
wide, as declared by the first sample. -/
theorem adcp_bin_depths_width_first_only_witness :
    (binRow (-999999999) 29 900 400 29 450 1).length = (29 : ℤ).toNat ∧
      (binRow (-999999999) 29 900 400 (-999999999) 7 0).length =
        (binRow (-999999999) 29 900 400 29 450 1).length :=
  adcp_bin_depths_width_first_only (-999999999) [900, 900] [400, 400] [450, 7] [1, 0]
    29 [29] [-999999999]
    (binRow (-999999999) 29 900 400 29 450 1)
    (binRow (-999999999) 29 900 400 (-999999999) 7 0)
    (List.mem_cons_self _ _)
    (List.mem_cons_of_mem _ (List.mem_cons_self _ _))

end IonFunctions
